import Mathlib

/-!
Verification of the Toyota dealership dashboard's report-ingestion and
analytics core against the repository.

The relational layout is taken from `database/schema.sql` (the shipped,
denormalized DDL) and the schema documentation embedded in the repository.
The ingestion pipeline itself (`database/populate_db.py`) and the FastAPI
metrics backend are not part of the provided source; where a definition
has no source code to translate, it is modelled from the specification and
the in-repo schema documentation, and says so in its doc comment.

The auth proxy (`Frontend/proxy.ts`) and the upload proxy route
(`Frontend/app/api/upload-reports/route.ts`) are translated directly from
their TypeScript source.
-/

namespace Toyota

/-! ## Character-list string utilities

Core `String` comparison and case functions go through byte iterators that
the kernel cannot evaluate, so the development uses list-of-character
versions throughout.  `listLexLE` is lexicographic comparison of
character lists (the order used for technician-name tie-breaks);
`lowerList` is character-wise lower-casing (the case-insensitive MSI
match). -/

def listLexLE : List Char → List Char → Bool
  | [], _ => true
  | _ :: _, [] => false
  | a :: as, b :: bs => if a = b then listLexLE as bs else decide (a < b)

def strLE (a b : String) : Bool := listLexLE a.toList b.toList

def lowerList (cs : List Char) : List Char := cs.map Char.toLower

theorem listLexLE_total (a b : List Char) : listLexLE a b = true ∨ listLexLE b a = true := by
  induction a generalizing b with
  | nil => left; rfl
  | cons x xs ih =>
    cases b with
    | nil => right; rfl
    | cons y ys =>
      by_cases hxy : x = y
      · subst hxy
        simp only [listLexLE, if_pos rfl]
        exact ih ys
      · rcases lt_trichotomy x y with h | h | h
        · left
          simp only [listLexLE, if_neg hxy, decide_eq_true_eq]
          exact h
        · exact absurd h hxy
        · right
          simp only [listLexLE, if_neg (Ne.symm hxy), decide_eq_true_eq]
          exact h

theorem listLexLE_trans (a b c : List Char) (hab : listLexLE a b = true)
    (hbc : listLexLE b c = true) : listLexLE a c = true := by
  induction a generalizing b c with
  | nil => rfl
  | cons x xs ih =>
    cases b with
    | nil => simp [listLexLE] at hab
    | cons y ys =>
      cases c with
      | nil => simp [listLexLE] at hbc
      | cons z zs =>
        by_cases hxy : x = y
        · subst hxy
          simp only [listLexLE, if_pos rfl] at hab
          by_cases hyz : x = z
          · subst hyz
            simp only [listLexLE, if_pos rfl] at hbc ⊢
            exact ih ys zs hab hbc
          · simp only [listLexLE, if_neg hyz] at hbc ⊢
            exact hbc
        · simp only [listLexLE, if_neg hxy, decide_eq_true_eq] at hab
          by_cases hyz : y = z
          · subst hyz
            simp only [listLexLE, if_neg hxy, decide_eq_true_eq]
            exact hab
          · simp only [listLexLE, if_neg hyz, decide_eq_true_eq] at hbc
            have hxz : x < z := lt_trans hab hbc
            simp only [listLexLE, if_neg (ne_of_lt hxz), decide_eq_true_eq]
            exact hxz

theorem listLexLE_antisymm (a b : List Char) (hab : listLexLE a b = true)
    (hba : listLexLE b a = true) : a = b := by
  induction a generalizing b with
  | nil =>
    cases b with
    | nil => rfl
    | cons y ys => simp [listLexLE] at hba
  | cons x xs ih =>
    cases b with
    | nil => simp [listLexLE] at hab
    | cons y ys =>
      by_cases hxy : x = y
      · subst hxy
        simp only [listLexLE, if_pos rfl] at hab hba
        rw [ih ys hab hba]
      · simp only [listLexLE, if_neg hxy, decide_eq_true_eq] at hab
        simp only [listLexLE, if_neg (Ne.symm hxy), decide_eq_true_eq] at hba
        exact absurd (lt_trans hab hba) (lt_irrefl x)

/-! ## Schema Store: shipped denormalized tables

`database/schema.sql` creates `technician_reports`, `daily_cpus_reports`
and `repeat_repairs`.  `daily_cpus_reports` (the RepairOrderRecord table)
has `PRIMARY KEY (id)` with `id INT AUTO_INCREMENT` and only a plain
`INDEX` on `ro_no`; the embedded schema notes state the two report tables
are bulk-inserted and that duplicate `ro_no` values are expected, while
only `repeat_repairs` (PRIMARY KEY `date`) is upserted. -/

/-- A `daily_cpus_reports` row (RepairOrderRecord), restricted to the
columns the claims touch: surrogate key `id`, natural identifier `ro_no`,
and the timestamp/identity columns.  Timestamps are modelled as epoch
minutes (`Int`), nullable columns as `Option`. -/
structure DailyCpusRow where
  id : Nat
  service_date : Option String
  chassis_number : Option String
  ro_no : Option String
  reg_no : Option String
  receiving_date_time : Option Int
  delivery_date_time : Option Int
  promised_date_time : Option Int
  technician_name : Option String
deriving DecidableEq, Repr

/-- A `daily_cpus_reports` row as supplied by ingestion, before the
AUTO_INCREMENT key is assigned. -/
structure DailyCpusInput where
  service_date : Option String
  chassis_number : Option String
  ro_no : Option String
  reg_no : Option String
  receiving_date_time : Option Int
  delivery_date_time : Option Int
  promised_date_time : Option Int
  technician_name : Option String
deriving DecidableEq, Repr

/-- The `daily_cpus_reports` table: rows plus the AUTO_INCREMENT counter. -/
structure DailyStore where
  rows : List DailyCpusRow
  nextId : Nat
deriving DecidableEq, Repr

def DailyStore.empty : DailyStore := ⟨[], 1⟩

/-- Inserting into `daily_cpus_reports`.  Per the shipped DDL the only
key is the AUTO_INCREMENT `id`, and the embedded schema notes say the
report tables are "bulk-inserted": every incoming row is appended with a
fresh `id`; `ro_no` carries no uniqueness. -/
def insertDaily (s : DailyStore) (r : DailyCpusInput) : DailyStore :=
  { rows := s.rows ++
      [{ id := s.nextId
       , service_date := r.service_date
       , chassis_number := r.chassis_number
       , ro_no := r.ro_no
       , reg_no := r.reg_no
       , receiving_date_time := r.receiving_date_time
       , delivery_date_time := r.delivery_date_time
       , promised_date_time := r.promised_date_time
       , technician_name := r.technician_name }]
  , nextId := s.nextId + 1 }

/-- Number of stored repair-order rows carrying a given `ro_no`. -/
def countRo (s : DailyStore) (v : String) : Nat :=
  (s.rows.filter (fun r => r.ro_no = some v)).length

theorem countRo_insertDaily (s : DailyStore) (r : DailyCpusInput) (v : String) :
    countRo (insertDaily s r) v =
      countRo s v + (if r.ro_no = some v then 1 else 0) := by
  simp only [countRo, insertDaily, List.filter_append, List.length_append]
  by_cases h : r.ro_no = some v
  · simp [h]
  · simp [h]

/-! ## repeat_repairs: one typed metric row per date -/

/-- A `repeat_repairs` row (RepeatRepairMetric): `date` is the primary
key (`DATE NOT NULL`), the percentage is a 2-place decimal modelled as a
rational. -/
structure RepeatRepairRow where
  date : String
  total_vehicle_delivered : Int
  repeat_repair_count : Int
  repeat_repair_percentage : ℚ
deriving DecidableEq, Repr

/-- Number of `repeat_repairs` rows for a given calendar date. -/
def countDate (store : List RepeatRepairRow) (d : String) : Nat :=
  (store.filter (fun r => r.date = d)).length

/-- The `repeat_repairs` uniqueness invariant: at most one row per date
(enforced by `PRIMARY KEY (date)` in the shipped DDL). -/
def oneRowPerDate (store : List RepeatRepairRow) : Prop :=
  ∀ d, countDate store d ≤ 1

instance (store : List RepeatRepairRow) : Decidable (oneRowPerDate store) := by
  unfold oneRowPerDate
  exact decidable_of_iff
    (∀ r ∈ store, countDate store r.date ≤ 1)
    (by
      constructor
      · intro h d
        by_cases hd : ∃ r ∈ store, r.date = d
        · obtain ⟨r, hr, hrd⟩ := hd
          exact hrd ▸ h r hr
        · have : countDate store d = 0 := by
            simp only [countDate, List.length_eq_zero, List.filter_eq_nil_iff,
              decide_eq_true_eq]
            intro r hr hrd
            exact hd ⟨r, hr, hrd⟩
          omega
      · intro h r _
        exact h r.date)

/-- Modelled from the spec and the in-repo schema notes (the loader
`populate_db.py` is not in the provided source): ingestion "parses and
upserts typed rows directly into `repeat_repairs`", keyed by `date`.  A
row whose date already exists has its non-key columns overwritten
(last-write-wins); otherwise the row is appended. -/
def upsertRepeatRepair (store : List RepeatRepairRow) (r : RepeatRepairRow) :
    List RepeatRepairRow :=
  if store.any (fun x => x.date = r.date) then
    store.map (fun x => if x.date = r.date then r else x)
  else store ++ [r]

theorem upsert_replacement_keeps_date (r x : RepeatRepairRow) :
    (if x.date = r.date then r else x).date = x.date := by
  by_cases hx : x.date = r.date
  · simp [hx]
  · simp [hx]

theorem countDate_map_upsert (store : List RepeatRepairRow) (r : RepeatRepairRow)
    (d : String) :
    countDate (store.map (fun x => if x.date = r.date then r else x)) d =
      countDate store d := by
  simp only [countDate, List.filter_map, List.length_map]
  congr 1
  apply List.filter_congr
  intro x _
  simp only [Function.comp_apply]
  rw [upsert_replacement_keeps_date]

theorem countDate_append_single (store : List RepeatRepairRow)
    (r : RepeatRepairRow) (d : String) :
    countDate (store ++ [r]) d =
      countDate store d + (if r.date = d then 1 else 0) := by
  simp only [countDate, List.filter_append, List.length_append]
  by_cases h : r.date = d
  · simp [h]
  · simp [h]

theorem countDate_pos_of_any (store : List RepeatRepairRow) (r : RepeatRepairRow)
    (h : store.any (fun x => x.date = r.date) = true) :
    1 ≤ countDate store r.date := by
  simp only [List.any_eq_true, decide_eq_true_eq] at h
  obtain ⟨x, hx, hxd⟩ := h
  have : x ∈ store.filter (fun y => y.date = r.date) :=
    List.mem_filter.mpr ⟨hx, by simpa using hxd⟩
  have := List.length_pos.mpr (List.ne_nil_of_mem this)
  simpa [countDate] using this

theorem countDate_zero_of_not_any (store : List RepeatRepairRow)
    (r : RepeatRepairRow)
    (h : store.any (fun x => x.date = r.date) = false) :
    countDate store r.date = 0 := by
  simp only [countDate, List.length_eq_zero, List.filter_eq_nil_iff,
    decide_eq_true_eq]
  intro x hx hxd
  have hmem : store.any (fun y => y.date = r.date) = true :=
    List.any_eq_true.mpr ⟨x, hx, by simp [hxd]⟩
  rw [h] at hmem
  exact Bool.false_ne_true hmem

theorem mem_upsert_of_any (store : List RepeatRepairRow) (r : RepeatRepairRow)
    (h : store.any (fun x => x.date = r.date) = true) :
    r ∈ upsertRepeatRepair store r := by
  simp only [upsertRepeatRepair, if_pos h]
  simp only [List.any_eq_true, decide_eq_true_eq] at h
  obtain ⟨x, hx, hxd⟩ := h
  have hm : (fun y => if y.date = r.date then r else y) x ∈
      store.map (fun y => if y.date = r.date then r else y) :=
    List.mem_map_of_mem _ hx
  simpa [hxd] using hm

theorem upsert_length (store : List RepeatRepairRow) (r : RepeatRepairRow) :
    (upsertRepeatRepair store r).length =
      if store.any (fun x => x.date = r.date) then store.length
      else store.length + 1 := by
  by_cases h : store.any (fun x => x.date = r.date) = true
  · simp [upsertRepeatRepair, h]
  · simp only [Bool.not_eq_true] at h
    simp [upsertRepeatRepair, h]

/-! ## Ingestion Log / Idempotency Guard

The `ingestion_log` table is described by the embedded schema notes:
it records `(filename, mtime, table_name, rows_inserted)` and lets
subsequent runs skip already-ingested files.  The guard code itself is in
`populate_db.py`, which is not part of the provided source. -/

/-- The `(filename, modification_time, target_table)` identity of one
ingestion request. -/
structure IngestKey where
  filename : String
  mtime : Nat
  table_name : String
deriving DecidableEq, Repr

/-- An `ingestion_log` row. -/
structure IngestionLogEntry where
  key : IngestKey
  rows_inserted : Nat
deriving DecidableEq, Repr

/-- What an ingestion request reports back to the caller, plus a marker
recording whether the Upsert Loader ran at all. -/
structure IngestResult where
  rows_inserted : Nat
  skipped : Bool
  loader_invoked : Bool
deriving DecidableEq, Repr

/-- The pipeline state: one target table's data plus the ingestion log. -/
structure IngestState (σ : Type) where
  data : σ
  log : List IngestionLogEntry
deriving DecidableEq

/-- Modelled from the spec: `shouldProcess(filename, modification_time,
target_table)` holds when no log entry carries that exact triple. -/
def shouldProcess (log : List IngestionLogEntry) (k : IngestKey) : Bool :=
  !(log.any (fun e => e.key = k))

/-- Modelled from the spec (the loader driver is not in the provided
source): an ingestion request first consults the Ingestion Log; on a hit
it skips entirely, reporting zero rows; otherwise it runs the loader
(`load`, returning the new table data and the count of rows affected) and
records the triple with that count. -/
def ingest {σ ρ : Type} (load : σ → List ρ → σ × Nat) (st : IngestState σ)
    (k : IngestKey) (batch : List ρ) : IngestState σ × IngestResult :=
  if shouldProcess st.log k then
    let r := load st.data batch
    ({ data := r.1, log := st.log ++ [⟨k, r.2⟩] },
     { rows_inserted := r.2, skipped := false, loader_invoked := true })
  else
    (st, { rows_inserted := 0, skipped := true, loader_invoked := false })

theorem shouldProcess_after_record (log : List IngestionLogEntry)
    (k : IngestKey) (n : Nat) :
    shouldProcess (log ++ [⟨k, n⟩]) k = false := by
  simp [shouldProcess, List.any_append]

theorem ingest_skip {σ ρ : Type} (load : σ → List ρ → σ × Nat)
    (st : IngestState σ) (k : IngestKey) (batch : List ρ)
    (h : shouldProcess st.log k = false) :
    ingest load st k batch =
      (st, { rows_inserted := 0, skipped := true, loader_invoked := false }) := by
  simp [ingest, h]

/-! ## Upsert Loader: all-or-nothing batch load -/

/-- Modelled from the spec (the loader is not in the provided source):
one pass over the batch inside the transaction.  `ok` is the storage
layer's type/constraint check, `ins` writes one row into the working
table state.  The first row failing its check aborts with that row's
index; otherwise the final state is returned. -/
def loadBatch {σ ρ : Type} (ok : ρ → Bool) (ins : σ → ρ → σ) :
    σ → List ρ → Except Nat σ
  | acc, [] => Except.ok acc
  | acc, r :: rs =>
    if ok r then (loadBatch ok ins (ins acc r) rs).mapError (· + 1)
    else Except.error 0

/-- Modelled from the spec: the transactional wrapper around
`loadBatch` — on success the new table state is committed, on any
failure the transaction is rolled back so the pre-call state stays
visible, and the error carries the offending row index. -/
def runBatch {σ ρ : Type} (ok : ρ → Bool) (ins : σ → ρ → σ) (store : σ)
    (rows : List ρ) : σ × Option Nat :=
  match loadBatch ok ins store rows with
  | Except.ok s => (s, none)
  | Except.error i => (store, some i)

theorem loadBatch_error_of_bad {σ ρ : Type} (ok : ρ → Bool) (ins : σ → ρ → σ)
    (rows : List ρ) (acc : σ) (h : rows.all ok = false) :
    ∃ i, loadBatch ok ins acc rows = Except.error i ∧
      ∃ hi : i < rows.length,
        ok (rows.get ⟨i, hi⟩) = false ∧ (rows.take i).all ok = true := by
  induction rows generalizing acc with
  | nil => simp at h
  | cons r rs ih =>
    by_cases hr : ok r = true
    · simp only [List.all_cons, hr, Bool.true_and] at h
      obtain ⟨i, hload, hi, hbad, htake⟩ := ih (ins acc r) h
      refine ⟨i + 1, ?_, by simpa using hi, ?_, ?_⟩
      · simp [loadBatch, hr, hload, Except.mapError]
      · simpa using hbad
      · simpa [List.all_cons, hr] using htake
    · simp only [Bool.not_eq_true] at hr
      exact ⟨0, by simp [loadBatch, hr], by simp, by simpa using hr, by simp⟩

/-! ## Metrics Engine: on-time / grace / late classification -/

/-- The three delivery buckets of the Metrics Engine. -/
inductive DeliveryStatus where
  | on_time
  | grace
  | late
deriving DecidableEq, Repr

/-- Modelled from the spec (the FastAPI analytics backend is not in the
provided source): a job is `on_time` when delivery is at or before the
promised time, `grace` when it is within the configured grace window
after the promised time, and `late` otherwise; both boundaries are
inclusive on the earlier bucket. -/
def classifyDelivery (delivery promised grace_window : Int) : DeliveryStatus :=
  if delivery ≤ promised then DeliveryStatus.on_time
  else if delivery ≤ promised + grace_window then DeliveryStatus.grace
  else DeliveryStatus.late

/-- Classification lifted to nullable timestamps: only jobs with non-null
delivery and promised timestamps are classified. -/
def classifyJob (delivery promised : Option Int) (grace_window : Int) :
    Option DeliveryStatus :=
  match delivery, promised with
  | some d, some p => some (classifyDelivery d p grace_window)
  | _, _ => none

/-! ## Metrics Engine: rework rate -/

/-- Rounding to one decimal place, on exact rationals. -/
def roundTo1 (q : ℚ) : ℚ := (round (q * 10) : ℤ) / 10

/-- One bucket of the month-ordered rework histogram. -/
structure ReworkByMonth where
  month : String
  rework_count : Nat
deriving DecidableEq, Repr

/-- The `/rework-rate` response shape consumed by the dashboard. -/
structure ReworkRateApiResponse where
  success : Bool
  rework_rate : ℚ
  first_time_fix_rate : ℚ
  total_rework : Nat
  total_jobs : Nat
  rework_by_month : List ReworkByMonth
deriving DecidableEq, Repr

/-- Modelled from the spec (the backend is not in the provided source):
`rework_rate = total_rework / total_jobs * 100` rounded to one decimal
place, and `first_time_fix_rate = 100 - rework_rate`. -/
def reworkRateQuery (total_rework total_jobs : Nat)
    (by_month : List ReworkByMonth) : ReworkRateApiResponse :=
  let rate := roundTo1 ((total_rework : ℚ) / (total_jobs : ℚ) * 100)
  { success := true
  , rework_rate := rate
  , first_time_fix_rate := 100 - rate
  , total_rework := total_rework
  , total_jobs := total_jobs
  , rework_by_month := by_month }

/-! ## Metrics Engine: MSI category summary -/

/-- A job row as the MSI query sees it: the `technician_reports` fields
it filters on (`msi`, `operations`, `ro_no`) joined with the repair
order's delivery/promised timestamps. -/
structure MsiJobRow where
  ro_no : Option String
  msi : Option String
  operation : Option String
  delivery_date_time : Option Int
  promised_date_time : Option Int
deriving DecidableEq, Repr

/-- Case-insensitive exact match of a job row's MSI field against the
queried category. -/
def msiMatches (cat : String) (r : MsiJobRow) : Bool :=
  match r.msi with
  | some m => lowerList m.toList = lowerList cat.toList
  | none => false

/-- Occurrence count of one operation text among the matching job rows. -/
def opUsage (hits : List MsiJobRow) (op : String) : Nat :=
  (hits.filter (fun r => r.operation = some op)).length

/-- Operation texts occurring among the matching rows, deduplicated,
first occurrence first. -/
def opsOf (hits : List MsiJobRow) : List String :=
  (hits.filterMap (fun r => r.operation)).dedup

/-- Picks the operation whose usage count is extremal under `better`
(strictly-better comparison); `none` on an empty operation list. -/
def pickOp (hits : List MsiJobRow) (better : Nat → Nat → Bool) :
    List String → Option String
  | [] => none
  | o :: os =>
    some (os.foldl
      (fun best o2 =>
        if better (opUsage hits o2) (opUsage hits best) then o2 else best)
      o)

/-- Jobs for one operation falling in one delivery bucket. -/
def opStatusCount (hits : List MsiJobRow) (grace_window : Int) (op : String)
    (st : DeliveryStatus) : Nat :=
  (hits.filter (fun r =>
    r.operation = some op &&
      classifyJob r.delivery_date_time r.promised_date_time grace_window
        = some st)).length

/-- One row of the MSI per-operation performance table. -/
structure PerformanceRow where
  name : String
  ontime : Nat
  grace : Nat
  late : Nat
deriving DecidableEq, Repr

/-- The `/msi` response shape consumed by the dashboard. -/
structure MSIResponse where
  success : Bool
  category : String
  most_used_operation : Option String
  least_used_operation : Option String
  avg_no_of_operations : ℚ
  performance_table : List PerformanceRow
deriving DecidableEq, Repr

/-- Modelled from the spec (the backend is not in the provided source):
the MSI category summary filters job rows by case-insensitive MSI match,
reports most- and least-used operation text by occurrence count, the
average number of operations per repair order, and a per-operation
on-time/grace/late table.  The operation always succeeds; a category with
no matching rows yields an empty summary, not an error. -/
def msiQuery (jobs : List MsiJobRow) (grace_window : Int) (cat : String) :
    MSIResponse :=
  let hits := jobs.filter (msiMatches cat)
  let ops := opsOf hits
  let ros := (hits.filterMap (fun r => r.ro_no)).dedup
  { success := true
  , category := cat
  , most_used_operation := pickOp hits (fun a b => decide (b < a)) ops
  , least_used_operation := pickOp hits (fun a b => decide (a < b)) ops
  , avg_no_of_operations :=
      if ros.length = 0 then 0 else (hits.length : ℚ) / (ros.length : ℚ)
  , performance_table := ops.map (fun op =>
      { name := op
      , ontime := opStatusCount hits grace_window op DeliveryStatus.on_time
      , grace := opStatusCount hits grace_window op DeliveryStatus.grace
      , late := opStatusCount hits grace_window op DeliveryStatus.late }) }

/-! ## Metrics Engine: technician efficiency ranking -/

/-- Per-technician aggregate entering the ranking, mirroring the
`job_data` row shape minus `position`. -/
structure TechStats where
  technician : String
  efficiency_percent : ℚ
  on_time : Nat
  total_jobs : Nat
deriving DecidableEq, Repr

/-- A `job_data` row of the `/jobs-overview` response. -/
structure JobsOverviewRow where
  position : Nat
  technician : String
  efficiency_percent : ℚ
  on_time : Nat
  total_jobs : Nat
deriving DecidableEq, Repr

/-- The ranking row carried by a `/jobs-overview` row, minus its
position. -/
def JobsOverviewRow.stats (r : JobsOverviewRow) : TechStats :=
  { technician := r.technician
  , efficiency_percent := r.efficiency_percent
  , on_time := r.on_time
  , total_jobs := r.total_jobs }

/-- Modelled from the spec: the ranking comparison — `efficiency_percent`
descending, ties by `total_jobs` descending, remaining ties by technician
name ascending. -/
def rankLE (a b : TechStats) : Bool :=
  if a.efficiency_percent = b.efficiency_percent then
    if a.total_jobs = b.total_jobs then strLE a.technician b.technician
    else decide (b.total_jobs < a.total_jobs)
  else decide (b.efficiency_percent < a.efficiency_percent)

/-- The ranking comparison as a relation, for sorting. -/
def rankRel (a b : TechStats) : Prop := rankLE a b = true

instance : DecidableRel rankRel :=
  fun a b => inferInstanceAs (Decidable (rankLE a b = true))

/-- Assigns 1-based positions down an already sorted list. -/
def assignPositions (start : Nat) : List TechStats → List JobsOverviewRow
  | [] => []
  | t :: ts =>
    { position := start
    , technician := t.technician
    , efficiency_percent := t.efficiency_percent
    , on_time := t.on_time
    , total_jobs := t.total_jobs } :: assignPositions (start + 1) ts

/-- Modelled from the spec (the backend is not in the provided source):
the technician efficiency ranking sorts the per-technician aggregates by
`rankLE` and assigns 1-based positions in that order. -/
def rankTechnicians (rows : List TechStats) : List JobsOverviewRow :=
  assignPositions 1 (rows.insertionSort rankRel)

/-! ## Auth proxy (`Frontend/proxy.ts`), translated from source -/

/-- The cookies of an incoming request that `proxy` reads:
`auth_session`, `auth_exp` and `auth_banned`.  `none` means the cookie is
absent. -/
structure ReqCookies where
  auth_session : Option String
  auth_exp : Option String
  auth_banned : Option String
deriving DecidableEq, Repr

/-- One `res.cookies.set(name, value, MaxAge ...)` call on the outgoing
response; `maxAge = 0` deletes the cookie. -/
structure SetCookieOp where
  name : String
  value : String
  maxAge : Nat
deriving DecidableEq, Repr

/-- The proxy's outcome: pass the request through, or redirect to the
signin page (`/`) with the given query parameters, applying the given
cookie operations. -/
inductive ProxyResponse where
  | next
  | redirect (query : List (String × String)) (setCookies : List SetCookieOp)
deriving DecidableEq, Repr

/-- JavaScript truthiness of `cookies.get(name)?.value`: the cookie is
present with a non-empty value. -/
def truthy : Option String → Bool
  | some s => !s.isEmpty
  | none => false

/-- PROTECTED_PREFIXES from `proxy.ts`. -/
def PROTECTED_PREFIXES : List String := ["/manager-dashboard"]

/-- The JavaScript test `pathname.startsWith(p)`, on character lists so
the kernel can evaluate it. -/
def pathStartsWith (pathname p : String) : Bool :=
  p.toList.isPrefixOf pathname.toList

/-- Whether the requested path is protected. -/
def needsAuth (pathname : String) : Bool :=
  PROTECTED_PREFIXES.any (fun p => pathStartsWith pathname p)

/-- Result of JavaScript `Number(s)` on a string: NaN, an infinity, or a
finite number.  Finite values are carried at their exact mathematical
value as rationals (IEEE-754 rounding of that value to a double is not
modelled; it cannot change any `now >= exp` comparison made here unless
the string encodes more precision than a double holds). -/
inductive JsNum where
  | nan
  | posInf
  | negInf
  | finite (val : ℚ)
deriving DecidableEq, Repr

/-- JavaScript string whitespace, trimmed by `Number()`: the WhiteSpace
and LineTerminator code points (tab, LF, VT, FF, CR, space, NBSP,
Unicode space separators, LS, PS, ZWNBSP). -/
def jsWhitespace (c : Char) : Bool :=
  c.toNat ∈ [0x9, 0xA, 0xB, 0xC, 0xD, 0x20, 0xA0, 0x1680, 0x202F, 0x205F,
    0x3000, 0x2028, 0x2029, 0xFEFF] ||
  (0x2000 ≤ c.toNat && c.toNat ≤ 0x200A)

/-- Value of a (known-valid) decimal digit string. -/
def digitsVal (cs : List Char) : Nat :=
  cs.foldl (fun a c => a * 10 + (c.toNat - 48)) 0

/-- Ten to an integer power, as a rational. -/
def ratPow10 : Int → ℚ
  | Int.ofNat n => (10 : ℚ) ^ n
  | Int.negSucc n => ((10 : ℚ) ^ (n + 1))⁻¹

/-- Parses the optional ExponentPart that must consume the entire rest
of the literal: empty means exponent 0; `e`/`E` with an optionally
signed digit string gives that exponent; anything else is invalid. -/
def parseExpPart : List Char → Option Int
  | [] => some 0
  | c :: rest =>
    if c = 'e' || c = 'E' then
      match rest with
      | '+' :: ds =>
        if !ds.isEmpty && ds.all Char.isDigit then some (digitsVal ds : Int)
        else none
      | '-' :: ds =>
        if !ds.isEmpty && ds.all Char.isDigit then some (-(digitsVal ds : Int))
        else none
      | ds =>
        if !ds.isEmpty && ds.all Char.isDigit then some (digitsVal ds : Int)
        else none
    else none

/-- Parses an unsigned StrUnsignedDecimalLiteral (digits, optional
fraction, optional exponent), requiring the whole input to match;
`none` is NaN. -/
def parseUnsignedDec (cs : List Char) : Option ℚ :=
  let intPart := cs.takeWhile Char.isDigit
  let rest1 := cs.dropWhile Char.isDigit
  match rest1 with
  | '.' :: rest2 =>
    let fracPart := rest2.takeWhile Char.isDigit
    let rest3 := rest2.dropWhile Char.isDigit
    if intPart.isEmpty && fracPart.isEmpty then none
    else
      match parseExpPart rest3 with
      | some e => some
          (((digitsVal intPart : ℚ) +
            (digitsVal fracPart : ℚ) / (10 : ℚ) ^ fracPart.length) * ratPow10 e)
      | none => none
  | _ =>
    if intPart.isEmpty then none
    else
      match parseExpPart rest1 with
      | some e => some ((digitsVal intPart : ℚ) * ratPow10 e)
      | none => none

/-- Hexadecimal digit value. -/
def hexVal (c : Char) : Option Nat :=
  if c.isDigit then some (c.toNat - 48)
  else if 'a' ≤ c ∧ c ≤ 'f' then some (c.toNat - 87)
  else if 'A' ≤ c ∧ c ≤ 'F' then some (c.toNat - 55)
  else none

/-- Octal digit value. -/
def octVal (c : Char) : Option Nat :=
  if '0' ≤ c ∧ c ≤ '7' then some (c.toNat - 48) else none

/-- Binary digit value. -/
def binVal (c : Char) : Option Nat :=
  if c = '0' then some 0 else if c = '1' then some 1 else none

/-- Parses a non-empty digit string in the given radix, requiring every
character to be a valid digit; `none` is NaN. -/
def parseRadixDigits (dv : Char → Option Nat) (radix : Nat)
    (ds : List Char) : Option Nat :=
  if ds.isEmpty then none
  else ds.foldl
    (fun acc c =>
      match acc, dv c with
      | some a, some d => some (a * radix + d)
      | _, _ => none)
    (some 0)

/-- A signed StrDecimalLiteral body (after the optional sign): the
literal `Infinity`, or an unsigned decimal literal; anything else is
NaN. -/
def decOrInfValue (sgn : Int) (cs : List Char) : JsNum :=
  if cs = "Infinity".toList then
    (if 0 ≤ sgn then JsNum.posInf else JsNum.negInf)
  else
    match parseUnsignedDec cs with
    | some q => JsNum.finite ((sgn : ℚ) * q)
    | none => JsNum.nan

/-- JavaScript `Number(s)` on a string (ECMA StringToNumber): trim
JS whitespace; an empty remainder is 0; a `+`/`-` sign admits only a
decimal literal or `Infinity`; an unsigned `0x`/`0o`/`0b` prefix admits
a radix literal; otherwise the remainder must be a decimal literal or
`Infinity`; any non-matching string is NaN. -/
def jsStringToNumber (s : String) : JsNum :=
  let cs :=
    ((s.toList.dropWhile jsWhitespace).reverse.dropWhile jsWhitespace).reverse
  match cs with
  | [] => JsNum.finite 0
  | '+' :: rest => decOrInfValue 1 rest
  | '-' :: rest => decOrInfValue (-1) rest
  | '0' :: 'x' :: rest =>
    match parseRadixDigits hexVal 16 rest with
    | some n => JsNum.finite (n : ℚ)
    | none => JsNum.nan
  | '0' :: 'X' :: rest =>
    match parseRadixDigits hexVal 16 rest with
    | some n => JsNum.finite (n : ℚ)
    | none => JsNum.nan
  | '0' :: 'o' :: rest =>
    match parseRadixDigits octVal 8 rest with
    | some n => JsNum.finite (n : ℚ)
    | none => JsNum.nan
  | '0' :: 'O' :: rest =>
    match parseRadixDigits octVal 8 rest with
    | some n => JsNum.finite (n : ℚ)
    | none => JsNum.nan
  | '0' :: 'b' :: rest =>
    match parseRadixDigits binVal 2 rest with
    | some n => JsNum.finite (n : ℚ)
    | none => JsNum.nan
  | '0' :: 'B' :: rest =>
    match parseRadixDigits binVal 2 rest with
    | some n => JsNum.finite (n : ℚ)
    | none => JsNum.nan
  | _ => decOrInfValue 1 cs

/-- The expiry test `Number.isNaN(exp) || now >= exp` of `proxy.ts`,
on the parsed `Number` value: true for NaN and negative infinity, false
for positive infinity, and the numeric comparison otherwise. -/
def jsExpiredCheck (exp : JsNum) (now : Int) : Bool :=
  match exp with
  | JsNum.nan => true
  | JsNum.posInf => false
  | JsNum.negInf => true
  | JsNum.finite q => decide (q ≤ (now : ℚ))

/-- The cookie operations of the expiry branch of `proxy.ts`:
clear `auth_session` and `auth_exp`, set `auth_banned=1` for ten years
(`10 * 365 * 24 * 60 * 60` seconds). -/
def banCookieOps : List SetCookieOp :=
  [ { name := "auth_session", value := "", maxAge := 0 }
  , { name := "auth_exp", value := "", maxAge := 0 }
  , { name := "auth_banned", value := "1", maxAge := 10 * 365 * 24 * 60 * 60 } ]

/-- The `proxy` function of `Frontend/proxy.ts`.  `now` is
`Math.floor(Date.now() / 1000)`.  Branches in source order: unprotected
paths pass through; a `auth_banned=1` cookie redirects with `banned=1`;
missing/empty session or expiry cookies redirect with `expired=1`; a
non-numeric or past `auth_exp` redirects while clearing the session
cookies and setting the ten-year ban cookie (in that branch the source
mutates the redirect URL only after the redirect response was created,
so the `expired=1` parameter never reaches the response); otherwise the
request passes through. -/
def proxy (pathname : String) (now : Int) (c : ReqCookies) : ProxyResponse :=
  if !needsAuth pathname then ProxyResponse.next
  else if c.auth_banned = some "1" then
    ProxyResponse.redirect [("banned", "1")] []
  else if !truthy c.auth_session || !truthy c.auth_exp then
    ProxyResponse.redirect [("expired", "1")] []
  else
    if jsExpiredCheck (jsStringToNumber (c.auth_exp.getD "")) now then
      ProxyResponse.redirect [] banCookieOps
    else ProxyResponse.next

/-- Effect of the response's cookie operations on the client's cookie
jar, for the three cookies `proxy` reads: `maxAge = 0` deletes,
otherwise the value is stored. -/
def applySetCookie (c : ReqCookies) (op : SetCookieOp) : ReqCookies :=
  { auth_session :=
      if op.name = "auth_session" then
        (if op.maxAge = 0 then none else some op.value) else c.auth_session
  , auth_exp :=
      if op.name = "auth_exp" then
        (if op.maxAge = 0 then none else some op.value) else c.auth_exp
  , auth_banned :=
      if op.name = "auth_banned" then
        (if op.maxAge = 0 then none else some op.value) else c.auth_banned }

def applySetCookies (c : ReqCookies) (ops : List SetCookieOp) : ReqCookies :=
  ops.foldl applySetCookie c

/-! ## Upload proxy (`Frontend/app/api/upload-reports/route.ts`),
translated from source -/

/-- Body of a response the route constructs: either the upstream body
text passed through verbatim, or a JSON object with a single `detail`
string. -/
inductive ResponseBody where
  | raw (text : String)
  | jsonDetail (detail : String)
deriving DecidableEq, Repr

/-- An HTTP response of the route: status, body, and `content-type`
header when one is set. -/
structure HttpResponse where
  status : Nat
  body : ResponseBody
  contentType : Option String
deriving DecidableEq, Repr

/-- What awaiting the upstream `fetch` (and the request parsing before
it) can produce: a backend reply, or a thrown error with its JavaScript
`name` and `message` (the abort timer throws `AbortError`). -/
inductive UpstreamOutcome where
  | reply (status : Nat) (bodyText : String) (contentType : Option String)
  | thrown (name : Option String) (msg : Option String)
deriving DecidableEq, Repr

/-- The helper `passThrough(upstream)`: forward the upstream body and status,
defaulting the content type to `application/json`. -/
def passThrough (status : Nat) (bodyText : String) (ct : Option String) :
    HttpResponse :=
  { status := status
  , body := ResponseBody.raw bodyText
  , contentType := some (ct.getD "application/json") }

/-- The `POST` handler: a backend reply is passed through; any thrown
error is caught and answered with a 502 whose JSON body carries a
`detail` string — the timeout message when the abort timer fired
(`AbortError`), a generic proxy-error message otherwise.  (The
`!API_BASE` 500 branch of the source is unreachable: `API_BASE` always
falls back to a non-empty default.) -/
def uploadReportsPOST (u : UpstreamOutcome) : HttpResponse :=
  match u with
  | UpstreamOutcome.reply s b ct => passThrough s b ct
  | UpstreamOutcome.thrown name msg =>
    { status := 502
    , body := ResponseBody.jsonDetail
        (if name = some "AbortError" then "Proxy timeout contacting FastAPI"
         else "Proxy error: " ++ msg.getD "Unknown error")
    , contentType := none }

theorem rankLE_total (a b : TechStats) : rankLE a b = true ∨ rankLE b a = true := by
  by_cases he : a.efficiency_percent = b.efficiency_percent
  · by_cases hj : a.total_jobs = b.total_jobs
    · simp only [rankLE, if_pos he, if_pos he.symm, if_pos hj, if_pos hj.symm, strLE]
      exact listLexLE_total _ _
    · simp only [rankLE, if_pos he, if_pos he.symm, if_neg hj, if_neg (Ne.symm hj),
        decide_eq_true_eq]
      omega
  · simp only [rankLE, if_neg he, if_neg (Ne.symm he), decide_eq_true_eq]
    rcases lt_trichotomy a.efficiency_percent b.efficiency_percent with h | h | h
    · right; exact h
    · exact absurd h he
    · left; exact h

theorem rankLE_trans (a b c : TechStats) (hab : rankLE a b = true)
    (hbc : rankLE b c = true) : rankLE a c = true := by
  by_cases heab : a.efficiency_percent = b.efficiency_percent
  · by_cases hebc : b.efficiency_percent = c.efficiency_percent
    · have heac : a.efficiency_percent = c.efficiency_percent := heab.trans hebc
      simp only [rankLE, if_pos heab] at hab
      simp only [rankLE, if_pos hebc] at hbc
      simp only [rankLE, if_pos heac]
      by_cases hjab : a.total_jobs = b.total_jobs
      · by_cases hjbc : b.total_jobs = c.total_jobs
        · have hjac : a.total_jobs = c.total_jobs := hjab.trans hjbc
          simp only [if_pos hjab, strLE] at hab
          simp only [if_pos hjbc, strLE] at hbc
          simp only [if_pos hjac, strLE]
          exact listLexLE_trans _ _ _ hab hbc
        · simp only [if_neg hjbc, decide_eq_true_eq] at hbc
          have hlt : c.total_jobs < a.total_jobs := hjab ▸ hbc
          simp only [if_neg (by omega : ¬ a.total_jobs = c.total_jobs),
            decide_eq_true_eq]
          exact hlt
      · simp only [if_neg hjab, decide_eq_true_eq] at hab
        by_cases hjbc : b.total_jobs = c.total_jobs
        · have hlt : c.total_jobs < a.total_jobs := hjbc ▸ hab
          simp only [if_neg (by omega : ¬ a.total_jobs = c.total_jobs),
            decide_eq_true_eq]
          exact hlt
        · simp only [if_neg hjbc, decide_eq_true_eq] at hbc
          have hlt : c.total_jobs < a.total_jobs := lt_trans hbc hab
          simp only [if_neg (by omega : ¬ a.total_jobs = c.total_jobs),
            decide_eq_true_eq]
          exact hlt
    · simp only [rankLE, if_neg hebc, decide_eq_true_eq] at hbc
      have hlt : c.efficiency_percent < a.efficiency_percent := heab ▸ hbc
      simp only [rankLE, if_neg (ne_of_gt hlt), decide_eq_true_eq]
      exact hlt
  · simp only [rankLE, if_neg heab, decide_eq_true_eq] at hab
    by_cases hebc : b.efficiency_percent = c.efficiency_percent
    · have hlt : c.efficiency_percent < a.efficiency_percent := hebc ▸ hab
      simp only [rankLE, if_neg (ne_of_gt hlt), decide_eq_true_eq]
      exact hlt
    · simp only [rankLE, if_neg hebc, decide_eq_true_eq] at hbc
      have hlt : c.efficiency_percent < a.efficiency_percent := lt_trans hbc hab
      simp only [rankLE, if_neg (ne_of_gt hlt), decide_eq_true_eq]
      exact hlt

theorem rankLE_antisymm_key (a b : TechStats) (hab : rankLE a b = true)
    (hba : rankLE b a = true) :
    a.efficiency_percent = b.efficiency_percent ∧
      a.total_jobs = b.total_jobs ∧ a.technician = b.technician := by
  by_cases he : a.efficiency_percent = b.efficiency_percent
  · by_cases hj : a.total_jobs = b.total_jobs
    · simp only [rankLE, if_pos he, if_pos hj, strLE] at hab
      simp only [rankLE, if_pos he.symm, if_pos hj.symm, strLE] at hba
      refine ⟨he, hj, ?_⟩
      have hl := listLexLE_antisymm _ _ hab hba
      exact String.toList_inj.mp hl
    · simp only [rankLE, if_pos he, if_neg hj, decide_eq_true_eq] at hab
      simp only [rankLE, if_pos he.symm, if_neg (Ne.symm hj),
        decide_eq_true_eq] at hba
      omega
  · simp only [rankLE, if_neg he, decide_eq_true_eq] at hab
    simp only [rankLE, if_neg (Ne.symm he), decide_eq_true_eq] at hba
    exact absurd (lt_trans hab hba) (lt_irrefl _)

instance : IsTotal TechStats rankRel := ⟨fun a b => rankLE_total a b⟩

instance : IsTrans TechStats rankRel := ⟨fun a b c => rankLE_trans a b c⟩

theorem assignPositions_length (start : Nat) (l : List TechStats) :
    (assignPositions start l).length = l.length := by
  induction l generalizing start with
  | nil => rfl
  | cons t ts ih => simp [assignPositions, ih]

theorem assignPositions_get_position (start : Nat) (l : List TechStats)
    (i : Nat) (hi : i < (assignPositions start l).length) :
    ((assignPositions start l).get ⟨i, hi⟩).position = start + i := by
  induction l generalizing start i with
  | nil => simp [assignPositions] at hi
  | cons t ts ih =>
    cases i with
    | zero => rfl
    | succ j =>
      have hj : j < (assignPositions (start + 1) ts).length := by
        simpa [assignPositions] using hi
      have h2 := ih (start + 1) j hj
      have h3 : (assignPositions start (t :: ts)).get ⟨j + 1, hi⟩ =
          (assignPositions (start + 1) ts).get ⟨j, hj⟩ := rfl
      rw [h3, h2]
      omega

theorem assignPositions_map_stats (start : Nat) (l : List TechStats) :
    (assignPositions start l).map JobsOverviewRow.stats = l := by
  induction l generalizing start with
  | nil => rfl
  | cons t ts ih => simp [assignPositions, JobsOverviewRow.stats, ih]

/-! ## Claim theorems -/

/-- A concrete repair-order row for a given `ro_no` and delivery
timestamp, as ingestion would supply it. -/
def roInput (ro : String) (deliv : Int) : DailyCpusInput :=
  { service_date := some "2025-11-12"
  , chassis_number := none
  , ro_no := some ro
  , reg_no := none
  , receiving_date_time := none
  , delivery_date_time := some deliv
  , promised_date_time := none
  , technician_name := none }

/-- C1 counterexample: in the shipped denormalized schema, ingesting a
second repair-order row with the already-present `ro_no` "RO-1001" and a
different delivery timestamp leaves TWO rows with that `ro_no`, not
exactly one — `daily_cpus_reports` has only the AUTO_INCREMENT surrogate
key, so the row is appended, not updated in place. -/
theorem daily_upsert_single_row_cex :
    countRo
        (insertDaily (insertDaily DailyStore.empty (roInput "RO-1001" 100))
          (roInput "RO-1001" 200))
        "RO-1001" = 2 ∧
      ¬ countRo
          (insertDaily (insertDaily DailyStore.empty (roInput "RO-1001" 100))
            (roInput "RO-1001" 200))
          "RO-1001" = 1 := by
  constructor
  · decide
  · decide

/-- C1 (amended): re-ingesting a repair-order row whose `ro_no` already
exists in the shipped `daily_cpus_reports` store appends a fresh row
rather than updating in place, so afterwards the store holds one more row
with that `ro_no` than before — at least two in total. -/
theorem daily_insert_appends_duplicate_ro (s : DailyStore) (r : DailyCpusInput)
    (v : String) (hro : r.ro_no = some v) (hex : 1 ≤ countRo s v) :
    countRo (insertDaily s r) v = countRo s v + 1 ∧
      2 ≤ countRo (insertDaily s r) v := by
  have h := countRo_insertDaily s r v
  rw [if_pos hro] at h
  exact ⟨h, by omega⟩

/-- C1 amended-claim witness at the counterexample's concrete store. -/
theorem daily_insert_appends_duplicate_ro_witness :
    countRo
        (insertDaily (insertDaily DailyStore.empty (roInput "RO-1001" 100))
          (roInput "RO-1001" 200))
        "RO-1001" =
      countRo (insertDaily DailyStore.empty (roInput "RO-1001" 100)) "RO-1001"
        + 1 ∧
    2 ≤ countRo
        (insertDaily (insertDaily DailyStore.empty (roInput "RO-1001" 100))
          (roInput "RO-1001" 200))
        "RO-1001" :=
  daily_insert_appends_duplicate_ro
    (insertDaily DailyStore.empty (roInput "RO-1001" 100))
    (roInput "RO-1001" 200) "RO-1001" (by decide) (by decide)

/-- C2: re-running the exact same ingestion request — same filename,
same modification time, same target table — against the state left by
the first run reports `rows_inserted = 0` and `skipped = true`, does not
invoke the Upsert Loader, and leaves the table data (hence its row
count) exactly as after the first run; this holds for every loader and
every starting state. -/
theorem ingest_rerun_idempotent {σ ρ : Type} (load : σ → List ρ → σ × Nat)
    (st : IngestState σ) (k : IngestKey) (batch : List ρ) :
    (ingest load (ingest load st k batch).1 k batch).2 =
        { rows_inserted := 0, skipped := true, loader_invoked := false } ∧
      (ingest load (ingest load st k batch).1 k batch).1 =
        (ingest load st k batch).1 := by
  have hdone : shouldProcess (ingest load st k batch).1.log k = false := by
    by_cases h : shouldProcess st.log k = true
    · have hlog : (ingest load st k batch).1.log =
          st.log ++ [⟨k, (load st.data batch).2⟩] := by
        simp [ingest, h]
      rw [hlog]
      exact shouldProcess_after_record _ _ _
    · have hst : (ingest load st k batch).1 = st := by
        simp [ingest, h]
      rw [hst]
      simpa using h
  rw [ingest_skip load _ k batch hdone]
  exact ⟨rfl, rfl⟩

/-- C3: the Upsert Loader is atomic per batch — whenever some row of the
batch fails the storage layer's check, the visible table state after the
call equals the pre-call state (zero rows committed), and the call fails
carrying the index of the offending row (the first failing one). -/
theorem upsert_loader_atomic {σ ρ : Type} (ok : ρ → Bool) (ins : σ → ρ → σ)
    (store : σ) (rows : List ρ) (h : rows.all ok = false) :
    (runBatch ok ins store rows).1 = store ∧
      ∃ i, (runBatch ok ins store rows).2 = some i ∧
        ∃ hi : i < rows.length,
          ok (rows.get ⟨i, hi⟩) = false ∧ (rows.take i).all ok = true := by
  obtain ⟨i, hload, hi, hbad, htake⟩ := loadBatch_error_of_bad ok ins rows store h
  refine ⟨?_, i, ?_, hi, hbad, htake⟩
  · simp [runBatch, hload]
  · simp [runBatch, hload]

/-- C3 witness: a five-row repeat-repair batch whose row at index 2 has
an empty (unparseable) date fails the NOT NULL key check; the call
reports index 2 and the store is left exactly as before the call. -/
theorem upsert_loader_atomic_witness :
    (runBatch (fun (r : RepeatRepairRow) => !r.date.isEmpty) upsertRepeatRepair
        [⟨"2025-11-10", 10, 1, 10⟩] [⟨"2025-11-11", 20, 1, 5⟩,
          ⟨"2025-11-12", 30, 2, 6⟩, ⟨"", 40, 3, 7⟩, ⟨"2025-11-13", 50, 4, 8⟩,
          ⟨"2025-11-14", 60, 5, 9⟩]).1 = [⟨"2025-11-10", 10, 1, 10⟩] ∧
      ∃ i, (runBatch (fun (r : RepeatRepairRow) => !r.date.isEmpty)
          upsertRepeatRepair [⟨"2025-11-10", 10, 1, 10⟩]
          [⟨"2025-11-11", 20, 1, 5⟩, ⟨"2025-11-12", 30, 2, 6⟩, ⟨"", 40, 3, 7⟩,
            ⟨"2025-11-13", 50, 4, 8⟩, ⟨"2025-11-14", 60, 5, 9⟩]).2 = some i ∧
        ∃ hi : i < ([⟨"2025-11-11", 20, 1, 5⟩, ⟨"2025-11-12", 30, 2, 6⟩,
            ⟨"", 40, 3, 7⟩, ⟨"2025-11-13", 50, 4, 8⟩,
            ⟨"2025-11-14", 60, 5, 9⟩] : List RepeatRepairRow).length,
          (fun (r : RepeatRepairRow) => !r.date.isEmpty)
              (([⟨"2025-11-11", 20, 1, 5⟩, ⟨"2025-11-12", 30, 2, 6⟩,
                ⟨"", 40, 3, 7⟩, ⟨"2025-11-13", 50, 4, 8⟩,
                ⟨"2025-11-14", 60, 5, 9⟩] : List RepeatRepairRow).get ⟨i, hi⟩)
            = false ∧
          (([⟨"2025-11-11", 20, 1, 5⟩, ⟨"2025-11-12", 30, 2, 6⟩,
            ⟨"", 40, 3, 7⟩, ⟨"2025-11-13", 50, 4, 8⟩,
            ⟨"2025-11-14", 60, 5, 9⟩] : List RepeatRepairRow).take i).all
            (fun r => !r.date.isEmpty) = true :=
  upsert_loader_atomic (fun r => !r.date.isEmpty) upsertRepeatRepair
    [⟨"2025-11-10", 10, 1, 10⟩]
    [⟨"2025-11-11", 20, 1, 5⟩, ⟨"2025-11-12", 30, 2, 6⟩, ⟨"", 40, 3, 7⟩,
      ⟨"2025-11-13", 50, 4, 8⟩, ⟨"2025-11-14", 60, 5, 9⟩] (by decide)

/-- C4: when the `repeat_repairs` store satisfies its uniqueness
invariant, upserting a metric row keeps the invariant, leaves exactly one
row for the ingested date, and — when the date already existed — updates
in place: the row count is unchanged and the new row's values are the
stored ones. -/
theorem repeat_repairs_one_row_per_date (store : List RepeatRepairRow)
    (r : RepeatRepairRow) (h : oneRowPerDate store) :
    oneRowPerDate (upsertRepeatRepair store r) ∧
      countDate (upsertRepeatRepair store r) r.date = 1 ∧
      (1 ≤ countDate store r.date →
        (upsertRepeatRepair store r).length = store.length ∧
          r ∈ upsertRepeatRepair store r) := by
  by_cases hany : store.any (fun x => x.date = r.date) = true
  · have hmap : upsertRepeatRepair store r =
        store.map (fun x => if x.date = r.date then r else x) := by
      simp [upsertRepeatRepair, hany]
    refine ⟨?_, ?_, ?_⟩
    · intro d
      rw [hmap, countDate_map_upsert]
      exact h d
    · rw [hmap, countDate_map_upsert]
      have h1 := countDate_pos_of_any store r hany
      have h2 := h r.date
      omega
    · intro _
      constructor
      · rw [hmap, List.length_map]
      · exact mem_upsert_of_any store r hany
  · have hfalse : store.any (fun x => x.date = r.date) = false := by
      simpa using hany
    have happ : upsertRepeatRepair store r = store ++ [r] := by
      simp [upsertRepeatRepair, hfalse]
    have hzero := countDate_zero_of_not_any store r hfalse
    refine ⟨?_, ?_, ?_⟩
    · intro d
      rw [happ, countDate_append_single]
      by_cases hd : r.date = d
      · have h2 := h d
        subst hd
        rw [if_pos rfl]
        omega
      · have h2 := h d
        rw [if_neg hd]
        omega
    · rw [happ, countDate_append_single, if_pos rfl, hzero]
    · intro hex
      exact absurd hex (by omega)

/-- C4 witness: re-ingesting the date 2025-11-12 with new figures over a
two-row store updates that row in place — the invariant holds, the date
has exactly one row, the row count is unchanged, and the new values are
stored. -/
theorem repeat_repairs_one_row_per_date_witness :
    oneRowPerDate
        (upsertRepeatRepair [⟨"2025-11-11", 35, 1, 3⟩, ⟨"2025-11-12", 40, 2, 5⟩]
          ⟨"2025-11-12", 41, 3, 732/100⟩) ∧
      countDate
          (upsertRepeatRepair
            [⟨"2025-11-11", 35, 1, 3⟩, ⟨"2025-11-12", 40, 2, 5⟩]
            ⟨"2025-11-12", 41, 3, 732/100⟩) "2025-11-12" = 1 ∧
      (1 ≤ countDate [⟨"2025-11-11", 35, 1, 3⟩, ⟨"2025-11-12", 40, 2, 5⟩]
          "2025-11-12" →
        (upsertRepeatRepair [⟨"2025-11-11", 35, 1, 3⟩, ⟨"2025-11-12", 40, 2, 5⟩]
            ⟨"2025-11-12", 41, 3, 732/100⟩).length =
          ([⟨"2025-11-11", 35, 1, 3⟩, ⟨"2025-11-12", 40, 2, 5⟩] :
            List RepeatRepairRow).length ∧
        (⟨"2025-11-12", 41, 3, 732/100⟩ : RepeatRepairRow) ∈
          upsertRepeatRepair [⟨"2025-11-11", 35, 1, 3⟩, ⟨"2025-11-12", 40, 2, 5⟩]
            ⟨"2025-11-12", 41, 3, 732/100⟩) :=
  repeat_repairs_one_row_per_date
    [⟨"2025-11-11", 35, 1, 3⟩, ⟨"2025-11-12", 40, 2, 5⟩]
    ⟨"2025-11-12", 41, 3, 732/100⟩ (by decide)

/-- C5: for jobs with non-null delivery and promised timestamps and a
positive grace window, the classification is inclusive on the earlier
bucket — delivery exactly at the promised time is `on_time`, delivery
exactly at the end of the grace window is `grace` (not `late`), and only
a delivery strictly after the grace window is `late`. -/
theorem classification_boundaries (d p g : Int) (hg : 0 < g) :
    (d = p →
      classifyJob (some d) (some p) g = some DeliveryStatus.on_time) ∧
    (d = p + g →
      classifyJob (some d) (some p) g = some DeliveryStatus.grace) ∧
    (p + g < d →
      classifyJob (some d) (some p) g = some DeliveryStatus.late) := by
  refine ⟨?_, ?_, ?_⟩
  · intro h1
    subst h1
    simp [classifyJob, classifyDelivery]
  · intro h1
    subst h1
    have h2 : ¬ (p + g ≤ p) := by omega
    simp [classifyJob, classifyDelivery, h2]
  · intro h1
    have h2 : ¬ (d ≤ p) := by omega
    have h3 : ¬ (d ≤ p + g) := by omega
    simp [classifyJob, classifyDelivery, h2, h3]

/-- C5 witness: with promised time 1000 and a 30-minute grace window,
delivery at 1000 is on_time, at 1030 is grace, at 1031 is late. -/
theorem classification_boundaries_witness :
    classifyJob (some 1000) (some 1000) 30 = some DeliveryStatus.on_time ∧
      classifyJob (some 1030) (some 1000) 30 = some DeliveryStatus.grace ∧
      classifyJob (some 1031) (some 1000) 30 = some DeliveryStatus.late :=
  ⟨(classification_boundaries 1000 1000 30 (by decide)).1 rfl,
   (classification_boundaries 1030 1000 30 (by decide)).2.1 (by decide),
   (classification_boundaries 1031 1000 30 (by decide)).2.2 (by decide)⟩

/-- C6: the technician efficiency ranking is a ranking of exactly the
input aggregates (a permutation), every pair of ranked rows is ordered by
the deterministic comparison `rankLE` (`efficiency_percent` descending,
then `total_jobs` descending, then technician name ascending), the
`position` of the i-th row is exactly `i + 1` (1-based), and `rankLE` is
a total order: total, and antisymmetric on the ranking key. -/
theorem technician_ranking_total_order (rows : List TechStats) :
    ((rankTechnicians rows).map JobsOverviewRow.stats).Perm rows ∧
      List.Pairwise (fun a b => rankLE a.stats b.stats = true)
        (rankTechnicians rows) ∧
      (∀ i (hi : i < (rankTechnicians rows).length),
        ((rankTechnicians rows).get ⟨i, hi⟩).position = i + 1) ∧
      (∀ a b : TechStats, rankLE a b = true ∨ rankLE b a = true) ∧
      (∀ a b : TechStats, rankLE a b = true → rankLE b a = true →
        a.efficiency_percent = b.efficiency_percent ∧
          a.total_jobs = b.total_jobs ∧ a.technician = b.technician) := by
  refine ⟨?_, ?_, ?_, rankLE_total, rankLE_antisymm_key⟩
  · rw [rankTechnicians, assignPositions_map_stats]
    exact List.perm_insertionSort rankRel rows
  · have hs := List.sorted_insertionSort rankRel rows
    have hp : List.Pairwise rankRel
        ((assignPositions 1 (rows.insertionSort rankRel)).map
          JobsOverviewRow.stats) := by
      rw [assignPositions_map_stats]
      exact hs
    exact List.pairwise_map.mp hp
  · intro i hi
    exact (assignPositions_get_position 1 (rows.insertionSort rankRel) i
      hi).trans (Nat.add_comm 1 i)

/-- The spec's worked ranking example: A and B both at 90 percent over
10 jobs, C at 80 percent over 5 jobs, deliberately listed out of order. -/
def demoRows : List TechStats :=
  [⟨"C", 80, 4, 5⟩, ⟨"B", 90, 9, 10⟩, ⟨"A", 90, 9, 10⟩]

/-- C6 witness: on the spec's example the first ranked technician has
position 1, the second position 2, the third position 3. -/
theorem technician_ranking_total_order_witness :
    ((rankTechnicians demoRows).get ⟨0, by decide⟩).position = 0 + 1 ∧
      ((rankTechnicians demoRows).get ⟨1, by decide⟩).position = 1 + 1 ∧
      ((rankTechnicians demoRows).get ⟨2, by decide⟩).position = 2 + 1 :=
  ⟨(technician_ranking_total_order demoRows).2.2.1 0 (by decide),
   (technician_ranking_total_order demoRows).2.2.1 1 (by decide),
   (technician_ranking_total_order demoRows).2.2.1 2 (by decide)⟩

/-- C7: for a non-empty job set the rework-rate query returns
`rework_rate` equal to `total_rework / total_jobs * 100` (rounded to one
decimal place) and `first_time_fix_rate = 100 - rework_rate`, so the two
rates sum to exactly 100. -/
theorem rework_rates_sum_to_100 (tr tj : Nat) (bm : List ReworkByMonth)
    (_h : 0 < tj) :
    (reworkRateQuery tr tj bm).rework_rate =
        roundTo1 ((tr : ℚ) / (tj : ℚ) * 100) ∧
      (reworkRateQuery tr tj bm).rework_rate +
          (reworkRateQuery tr tj bm).first_time_fix_rate = 100 := by
  constructor
  · rfl
  · simp only [reworkRateQuery]
    ring

/-- C7 witness at the README's example figures (23 rework among 150
jobs). -/
theorem rework_rates_sum_to_100_witness :
    (reworkRateQuery 23 150 []).rework_rate =
        roundTo1 ((23 : ℚ) / (150 : ℚ) * 100) ∧
      (reworkRateQuery 23 150 []).rework_rate +
          (reworkRateQuery 23 150 []).first_time_fix_rate = 100 :=
  rework_rates_sum_to_100 23 150 [] (by decide)

/-- C8: an MSI category query always reports `success := true` — also
when its filter matches no job row, in which case the performance table
is empty rather than the call failing. -/
theorem msi_empty_result_success (jobs : List MsiJobRow) (g : Int)
    (cat : String) :
    (msiQuery jobs g cat).success = true ∧
      (jobs.filter (msiMatches cat) = [] →
        (msiQuery jobs g cat).performance_table = []) := by
  constructor
  · rfl
  · intro h
    simp [msiQuery, h, opsOf]

/-- A one-row job table whose only MSI category is periodic
maintenance. -/
def demoJobs : List MsiJobRow :=
  [⟨some "RO-1", some "PERIODIC MAINTENANCE", some "OIL CHANGE",
    some 1030, some 1000⟩]

/-- C8 witness: querying the category "bodywork", which matches no row,
succeeds with an empty performance table. -/
theorem msi_empty_result_success_witness :
    (msiQuery demoJobs 30 "bodywork").success = true ∧
      (msiQuery demoJobs 30 "bodywork").performance_table = [] :=
  ⟨(msi_empty_result_success demoJobs 30 "bodywork").1,
   (msi_empty_result_success demoJobs 30 "bodywork").2 (by decide)⟩

/-- C9: once the proxy sees a protected-path request whose session and
expiry cookies are present but whose `auth_exp` is non-numeric or not in
the future, it redirects while clearing both session cookies and setting
`auth_banned=1` for ten years; applying those cookie operations to any
jar leaves `auth_banned=1` with the session cookies gone; and any
protected-path request carrying `auth_banned=1` — whatever its other
cookies — is redirected to the signin page with `banned=1`, so a
protected page is never served to that cookie state. -/
theorem proxy_ban_is_absorbing :
    (∀ (pathname : String) (now : Int) (c : ReqCookies),
      needsAuth pathname = true →
      c.auth_banned ≠ some "1" →
      truthy c.auth_session = true → truthy c.auth_exp = true →
      (jsStringToNumber (c.auth_exp.getD "") = JsNum.nan ∨
        jsStringToNumber (c.auth_exp.getD "") = JsNum.negInf ∨
        ∃ q, jsStringToNumber (c.auth_exp.getD "") = JsNum.finite q ∧
          q ≤ (now : ℚ)) →
      proxy pathname now c = ProxyResponse.redirect [] banCookieOps) ∧
    (∀ c, applySetCookies c banCookieOps =
      { auth_session := none, auth_exp := none, auth_banned := some "1" }) ∧
    (∀ (pathname : String) (now : Int) (c : ReqCookies),
      needsAuth pathname = true →
      c.auth_banned = some "1" →
      proxy pathname now c = ProxyResponse.redirect [("banned", "1")] []) := by
  refine ⟨?_, ?_, ?_⟩
  · intro pathname now c h1 h2 h3 h4 h5
    rcases h5 with h5 | h5 | ⟨q, hq, hqn⟩
    · simp [proxy, h1, h2, h3, h4, h5, jsExpiredCheck]
    · simp [proxy, h1, h2, h3, h4, h5, jsExpiredCheck]
    · simp [proxy, h1, h2, h3, h4, hq, jsExpiredCheck, hqn]
  · intro c
    rfl
  · intro pathname now c h1 h2
    simp [proxy, h1, h2]

/-- C9 witness: a request with a live session cookie but a garbled
(NaN) expiry gets the ban cookie set, as does one whose expiry is a
whitespace-padded, plus-signed fractional-exponent literal denoting a
past instant; and a later request carrying `auth_banned=1` together with
perfectly fresh session and expiry cookies is still redirected with
`banned=1`. -/
theorem proxy_ban_is_absorbing_witness :
    proxy "/manager-dashboard/daily-report" 1800000000
        ⟨some "tok", some "not-a-number", none⟩ =
      ProxyResponse.redirect [] banCookieOps ∧
    proxy "/manager-dashboard/daily-report" 1800000000
        ⟨some "tok", some "  +1.5e3  ", none⟩ =
      ProxyResponse.redirect [] banCookieOps ∧
    proxy "/manager-dashboard/daily-report" 0
        ⟨some "freshtok", some "4102444800", some "1"⟩ =
      ProxyResponse.redirect [("banned", "1")] [] :=
  ⟨proxy_ban_is_absorbing.1 "/manager-dashboard/daily-report" 1800000000
      ⟨some "tok", some "not-a-number", none⟩ (by decide) (by decide)
      (by decide) (by decide) (Or.inl (by decide)),
   proxy_ban_is_absorbing.1 "/manager-dashboard/daily-report" 1800000000
      ⟨some "tok", some "  +1.5e3  ", none⟩ (by decide) (by decide)
      (by decide) (by decide)
      (Or.inr (Or.inr ⟨1500, by
        show decOrInfValue 1 ['1', '.', '5', 'e', '3'] = JsNum.finite 1500
        simp +decide [decOrInfValue, parseUnsignedDec, parseExpPart, digitsVal,
          ratPow10]
        norm_num, by norm_num⟩)),
   proxy_ban_is_absorbing.2.2 "/manager-dashboard/daily-report" 0
      ⟨some "freshtok", some "4102444800", some "1"⟩ (by decide) rfl⟩

/-- C10: the upload proxy never lets an exception out — every thrown
error is answered with status 502 and a JSON body whose `detail` is the
timeout message for `AbortError` (the 45-second abort timer) and a
"Proxy error: ..." message otherwise, while a backend reply is passed
through with its status and body text unchanged. -/
theorem upload_reports_error_envelope :
    (∀ name msg,
      (uploadReportsPOST (UpstreamOutcome.thrown name msg)).status = 502 ∧
        (uploadReportsPOST (UpstreamOutcome.thrown name msg)).body =
          ResponseBody.jsonDetail
            (if name = some "AbortError" then "Proxy timeout contacting FastAPI"
             else "Proxy error: " ++ msg.getD "Unknown error")) ∧
    (∀ msg, (uploadReportsPOST
        (UpstreamOutcome.thrown (some "AbortError") msg)).body =
      ResponseBody.jsonDetail "Proxy timeout contacting FastAPI") ∧
    (∀ s b ct,
      uploadReportsPOST (UpstreamOutcome.reply s b ct) = passThrough s b ct ∧
        (uploadReportsPOST (UpstreamOutcome.reply s b ct)).status = s ∧
        (uploadReportsPOST (UpstreamOutcome.reply s b ct)).body =
          ResponseBody.raw b) := by
  refine ⟨fun name msg => ⟨rfl, rfl⟩, fun msg => ?_, fun s b ct => ⟨rfl, rfl, rfl⟩⟩
  simp [uploadReportsPOST]

end Toyota
